import Mathlib

/-!
Verification of the account-rotation, rate-limiting and background-ingestion
core of the x-go repository, by a shallow embedding of its Go sources into
Lean 4.  Each section names the Go file it embeds; machine integers are
modelled as `Nat`/`Int` with explicit `% 2^32` where overflow matters, and
time as `Int` (nanoseconds are irrelevant to the properties, only ordering
and subtraction are used).
-/

namespace XGo

/-! ### Agent rotation — `src/pkg/twitter/agent_manager.go`

`AgentManager.index` is a Go `uint32`; `getNextAgent` does
`index := atomic.AddUint32(&am.index, 1)` (the value *after* the increment,
wrapping modulo 2^32) and selects `am.agents[index % uint32(len(am.agents))]`.
-/

/-- Modulus of the Go `uint32` rotation cursor. -/
def UINT32_MOD : Nat := 4294967296

/-- One call of `getNextAgent`, given the current cursor value and the pool
size: returns the selected pool index and the new cursor value. -/
def getNextAgent (cursor poolSize : Nat) : Nat × Nat :=
  let index := (cursor + 1) % UINT32_MOD
  (index % poolSize, index)

/-- Pool indices returned by `n` successive `getNextAgent` calls starting
from cursor value `cursor`. -/
def nextAgentSeq (cursor poolSize : Nat) : Nat → List Nat
  | 0 => []
  | Nat.succ n =>
    let r := getNextAgent cursor poolSize
    r.1 :: nextAgentSeq r.2 poolSize n

theorem nextAgentSeq_eq_map (P : Nat) :
    ∀ (n c : Nat), c + n < UINT32_MOD →
      nextAgentSeq c P n = (List.range n).map (fun i => (c + 1 + i) % P) := by
  intro n
  induction n with
  | zero => intro c _; rfl
  | succ n ih =>
    intro c hc
    have h1 : c + 1 < UINT32_MOD := by omega
    have hmod : (c + 1) % UINT32_MOD = c + 1 := Nat.mod_eq_of_lt h1
    have hrec : (c + 1) + n < UINT32_MOD := by omega
    have : nextAgentSeq c P (n + 1)
        = ((c + 1) % UINT32_MOD % P) :: nextAgentSeq ((c + 1) % UINT32_MOD) P n := rfl
    rw [this, hmod, ih (c + 1) hrec, List.range_succ_eq_map]
    simp only [List.map_cons, List.map_map, List.cons.injEq]
    refine ⟨by norm_num, ?_⟩
    apply List.map_congr_left
    intro i _
    simp only [Function.comp_apply]
    congr 1
    omega

theorem nextAgentSeq_perm_range (P c : Nat) (hP : 0 < P)
    (hc : c + P < UINT32_MOD) :
    (nextAgentSeq c P P).Perm (List.range P) := by
  rw [nextAgentSeq_eq_map P P c hc]
  have hnodup : ((List.range P).map (fun i => (c + 1 + i) % P)).Nodup := by
    refine List.Nodup.map_on ?_ (List.nodup_range P)
    intro i hi j hj hij
    have hi' : i < P := List.mem_range.mp hi
    have hj' : j < P := List.mem_range.mp hj
    have hmod : (c + 1) + i ≡ (c + 1) + j [MOD P] := hij
    have h1 : i ≡ j [MOD P] := Nat.ModEq.add_left_cancel' (c + 1) hmod
    have h2 : i % P = j % P := h1
    rw [Nat.mod_eq_of_lt hi', Nat.mod_eq_of_lt hj'] at h2
    exact h2
  have hsub : ((List.range P).map (fun i => (c + 1 + i) % P)) ⊆ List.range P := by
    intro x hx
    rcases List.mem_map.mp hx with ⟨i, _, hix⟩
    subst hix
    exact List.mem_range.mpr (Nat.mod_lt _ hP)
  have hsp := List.subperm_of_subset hnodup hsub
  refine hsp.perm_of_length_le ?_
  simp

/-- C1 (counterexample): the round-robin claim is false as stated — with a pool
of 3 agents and cursor value `2^32 - 2`, the next 3 successive calls return the
pool indices `[0, 0, 1]` (the `uint32` cursor wraps from `2^32 - 1` to `0`), so
pool member `2` is not returned at all and member `0` is returned twice. -/
theorem c1_round_robin_cex :
    nextAgentSeq (UINT32_MOD - 2) 3 3 = [0, 0, 1]
    ∧ 2 ∉ nextAgentSeq (UINT32_MOD - 2) 3 3 := by
  decide

/-- C1 (amended): for every pool of `P` agents and every cursor value `c` such
that the `P` successive calls do not straddle the `uint32` wrap
(`c + P < 2^32`), the `P` calls return each pool member exactly once (the
selections are a permutation of `{0, ..., P-1}`, in stable cyclic order);
concretely, with a pool of 3 identities and a fresh cursor, 7 successive calls
return the agents at indices `[1, 2, 0, 1, 2, 0, 1]`. -/
theorem c1_round_robin (P c : Nat) (hP : 0 < P) (hc : c + P < UINT32_MOD) :
    (nextAgentSeq c P P).Perm (List.range P)
    ∧ nextAgentSeq 0 3 7 = [1, 2, 0, 1, 2, 0, 1] :=
  ⟨nextAgentSeq_perm_range P c hP hc, by decide⟩

theorem c1_round_robin_witness :
    (0 < 3 ∧ 5 + 3 < UINT32_MOD)
    ∧ ((nextAgentSeq 5 3 3).Perm (List.range 3)
        ∧ nextAgentSeq 0 3 7 = [1, 2, 0, 1, 2, 0, 1]) :=
  ⟨⟨by decide, by decide⟩, c1_round_robin 3 5 (by decide) (by decide)⟩

/-- C10: the rotation cursor is a 32-bit unsigned counter incremented modulo
`2^32` before indexing, so the selected index is `((cursor + 1) % 2^32) % P`;
the first selection after construction (cursor `0`) is index `1` whenever the
pool has at least 2 agents; and when the counter wraps past `2^32 - 1` the
round-robin cycle is broken for any pool size `P` not dividing `2^32`: the
selection made at the wrap is not the cyclic successor of the previous one. -/
theorem c10_cursor_wrap :
    (∀ c P : Nat, (getNextAgent c P).1 = ((c + 1) % UINT32_MOD) % P
      ∧ (getNextAgent c P).2 = (c + 1) % UINT32_MOD)
    ∧ (∀ P : Nat, 2 ≤ P → (getNextAgent 0 P).1 = 1)
    ∧ (∀ P : Nat, 0 < P → ¬ P ∣ UINT32_MOD →
        (getNextAgent (UINT32_MOD - 1) P).1
          ≠ ((getNextAgent (UINT32_MOD - 2) P).1 + 1) % P) := by
  refine ⟨fun c P => ⟨rfl, rfl⟩, ?_, ?_⟩
  · intro P hP
    show (0 + 1) % UINT32_MOD % P = 1
    have h1 : (0 + 1) % UINT32_MOD = 1 := by decide
    rw [h1, Nat.mod_eq_of_lt hP]
  · intro P hP hdvd
    have hsel2 : (getNextAgent (UINT32_MOD - 1) P).1 = 0 := by
      show (UINT32_MOD - 1 + 1) % UINT32_MOD % P = 0
      have h2 : UINT32_MOD - 1 + 1 = UINT32_MOD := by decide
      rw [h2, Nat.mod_self, Nat.zero_mod]
    have hsel1 : (getNextAgent (UINT32_MOD - 2) P).1 = (UINT32_MOD - 1) % P := by
      show (UINT32_MOD - 2 + 1) % UINT32_MOD % P = (UINT32_MOD - 1) % P
      have h3 : UINT32_MOD - 2 + 1 = UINT32_MOD - 1 := by decide
      rw [h3, Nat.mod_eq_of_lt (by decide : UINT32_MOD - 1 < UINT32_MOD)]
    rw [hsel1, hsel2, Nat.mod_add_mod]
    have h4 : UINT32_MOD - 1 + 1 = UINT32_MOD := by decide
    rw [h4]
    intro h0
    exact hdvd (Nat.dvd_of_mod_eq_zero h0.symm)

theorem c10_cursor_wrap_witness :
    ((getNextAgent 5 3).1 = ((5 + 1) % UINT32_MOD) % 3)
    ∧ ((getNextAgent 0 3).1 = 1)
    ∧ ((getNextAgent (UINT32_MOD - 1) 3).1
        ≠ ((getNextAgent (UINT32_MOD - 2) 3).1 + 1) % 3) :=
  ⟨(c10_cursor_wrap.1 5 3).1, c10_cursor_wrap.2.1 3 (by decide),
    c10_cursor_wrap.2.2 3 (by decide) (by decide)⟩

/-! ### Rate limiter — `src/pkg/twitter/ratelimiter.go`

Time is modelled as `Int` (arbitrary units); `time.Time` subtraction becomes
integer subtraction.  `endpointLimit` is the per-endpoint quota state; the
limiter mutex serialises each check, so one check is a pure state transition.
-/

/-- Per-endpoint quota state (`endpointLimit` in the Go source). -/
structure EndpointLimit where
  calls : Nat
  windowStart : Int
  windowLength : Int
  maxCalls : Nat
deriving DecidableEq

/-- Fresh per-endpoint state created lazily on first use:
`windowLength: 15 * time.Minute` (here in nanoseconds), `maxCalls: 100`,
`windowStart: time.Now()`. -/
def freshEndpointLimit (now : Int) : EndpointLimit :=
  { calls := 0, windowStart := now, windowLength := 15 * 60 * 1000000000,
    maxCalls := 100 }

/-- Body of `checkEndpointLimit` at time `now`: if the window has expired
(`windowElapsed > windowLength`) reset `calls` to 0 and `windowStart` to `now`
and allow; else if `calls >= maxCalls` refuse with the remaining wait
(`windowLength - windowElapsed`); else increment `calls` and allow.
Returns `(allowed, waitTime, updated state)`. -/
def checkEndpointLimit (limit : EndpointLimit) (now : Int) : Bool × Int × EndpointLimit :=
  let windowElapsed := now - limit.windowStart
  if windowElapsed > limit.windowLength then
    (true, 0, { limit with calls := 0, windowStart := now })
  else if limit.calls ≥ limit.maxCalls then
    (false, limit.windowLength - windowElapsed, limit)
  else
    (true, 0, { limit with calls := limit.calls + 1 })

/-- Successive `checkEndpointLimit` attempts at the given times, threading the
endpoint state; returns the list of `(allowed, waitTime)` results and the
final state. -/
def runChecks (limit : EndpointLimit) : List Int → List (Bool × Int) × EndpointLimit
  | [] => ([], limit)
  | t :: ts =>
    let r := checkEndpointLimit limit t
    ((r.1, r.2.1) :: (runChecks r.2.2 ts).1, (runChecks r.2.2 ts).2)

/-- Environment of one iteration of the `waitForEndpoint` retry loop:
whether `ctx.Done()` is ready at the top-of-loop `select`, the time at which
`checkEndpointLimit` runs, whether the context fires during the quota-reset
sleep, and whether it fires during `waitForGlobalLimit`'s pacing sleep
(which the Go code performs with `time.Sleep`, never consulting the context). -/
structure IterInput where
  cancelledBefore : Bool
  now : Int
  cancelledDuringSleep : Bool
  cancelledDuringGlobal : Bool
deriving DecidableEq

/-- Outcomes of `waitForEndpoint`: the Go function returns either `nil` or
`ctx.Err()`; no other value is syntactically reachable. -/
inductive AcquireOutcome
  | success
  | cancelled
deriving DecidableEq

/-- The `waitForEndpoint` retry loop over a finite schedule of iteration
environments (`none` = the schedule ran out before the loop returned).
Mirrors the Go control flow: top-of-loop `select` on `ctx.Done()` with a
`default` branch; on an allowed check, `waitForGlobalLimit()` (which sleeps
unconditionally, ignores the context, and always returns `nil`) and then
success; on a refused check with positive wait, a `select` between
`ctx.Done()` and the wait timer; then `continue`. -/
def waitForEndpoint (limit : EndpointLimit) : List IterInput → Option (AcquireOutcome × EndpointLimit)
  | [] => none
  | it :: rest =>
    if it.cancelledBefore then some (AcquireOutcome.cancelled, limit)
    else
      let r := checkEndpointLimit limit it.now
      if r.1 then
        some (AcquireOutcome.success, r.2.2)
      else if r.2.1 > 0 then
        if it.cancelledDuringSleep then some (AcquireOutcome.cancelled, r.2.2)
        else waitForEndpoint r.2.2 rest
      else waitForEndpoint r.2.2 rest

theorem runChecks_allowed : ∀ (ts : List Int) (limit : EndpointLimit),
    (∀ t ∈ ts, t - limit.windowStart ≤ limit.windowLength) →
    limit.calls + ts.length ≤ limit.maxCalls →
    runChecks limit ts = (List.replicate ts.length (true, 0),
      { limit with calls := limit.calls + ts.length }) := by
  intro ts
  induction ts with
  | nil => intro limit _ _; simp [runChecks]
  | cons t ts ih =>
    intro limit hwin hcalls
    have hw : ¬ (t - limit.windowStart > limit.windowLength) :=
      not_lt.mpr (hwin t (by simp))
    have hc : ¬ (limit.calls ≥ limit.maxCalls) := by
      simp only [List.length_cons] at hcalls
      omega
    have hstep : checkEndpointLimit limit t
        = (true, 0, { limit with calls := limit.calls + 1 }) := by
      simp [checkEndpointLimit, hw, hc]
    have hrest := ih { limit with calls := limit.calls + 1 }
      (by intro u hu; exact hwin u (by simp [hu]))
      (by simp only [List.length_cons] at hcalls; simp; omega)
    simp only [runChecks, hstep, hrest, List.length_cons, List.replicate_succ]
    have harith : limit.calls + 1 + ts.length = limit.calls + (ts.length + 1) := by omega
    rw [harith]

/-- C2: per-endpoint quota cap — for every endpoint state with a fresh call
count, the first `maxCalls` attempts within the rate-limit window all succeed
immediately (allowed, zero wait), and the `(maxCalls + 1)`-th attempt strictly
inside the window is refused with a wait time equal to the remaining window
time (`windowLength` minus elapsed, which is positive), and the refusing
iteration of the `waitForEndpoint` loop does not return: absent cancellation
it sleeps that wait and retries. -/
theorem c2_quota_cap (limit : EndpointLimit) (ts : List Int) (tf : Int)
    (hfresh : limit.calls = 0)
    (hlen : ts.length = limit.maxCalls)
    (hwin : ∀ t ∈ ts, t - limit.windowStart ≤ limit.windowLength)
    (hf : tf - limit.windowStart < limit.windowLength) :
    (runChecks limit ts).1 = List.replicate limit.maxCalls (true, 0)
    ∧ checkEndpointLimit (runChecks limit ts).2 tf
        = (false, limit.windowLength - (tf - limit.windowStart), (runChecks limit ts).2)
    ∧ 0 < limit.windowLength - (tf - limit.windowStart)
    ∧ waitForEndpoint (runChecks limit ts).2 [⟨false, tf, false, false⟩] = none := by
  have hrun := runChecks_allowed ts limit hwin (by omega)
  have h1 : (runChecks limit ts).1 = List.replicate limit.maxCalls (true, 0) := by
    rw [hrun, ← hlen]
  have hstate : (runChecks limit ts).2 = { limit with calls := limit.maxCalls } := by
    rw [hrun]
    simp [hfresh, hlen]
  have hne : ¬ (tf - limit.windowStart > limit.windowLength) := by omega
  have hcheck : checkEndpointLimit { limit with calls := limit.maxCalls } tf
      = (false, limit.windowLength - (tf - limit.windowStart),
          { limit with calls := limit.maxCalls }) := by
    simp [checkEndpointLimit, hne]
  have hpos : 0 < limit.windowLength - (tf - limit.windowStart) := by omega
  refine ⟨h1, ?_, hpos, ?_⟩
  · rw [hstate]
    exact hcheck
  · rw [hstate]
    simp [waitForEndpoint, hcheck, hpos]

theorem c2_quota_cap_witness :
    (runChecks { calls := 0, windowStart := 0, windowLength := 10, maxCalls := 2 } [0, 1]).1
      = List.replicate 2 (true, 0)
    ∧ checkEndpointLimit
        (runChecks { calls := 0, windowStart := 0, windowLength := 10, maxCalls := 2 } [0, 1]).2 1
      = (false, 10 - (1 - 0),
          (runChecks { calls := 0, windowStart := 0, windowLength := 10, maxCalls := 2 } [0, 1]).2)
    ∧ 0 < (10 : Int) - (1 - 0)
    ∧ waitForEndpoint
        (runChecks { calls := 0, windowStart := 0, windowLength := 10, maxCalls := 2 } [0, 1]).2
        [⟨false, 1, false, false⟩] = none :=
  c2_quota_cap { calls := 0, windowStart := 0, windowLength := 10, maxCalls := 2 }
    [0, 1] 1 rfl rfl (by decide) (by decide)

/-- C3 (counterexample): the window-reset claim is false as stated — the
attempt that triggers the reset does NOT leave the call count at 1: the code
returns success from the reset branch without incrementing, leaving
`calls = 0`, and consequently a window begun by a reset admits
`maxCalls + 1` successful attempts (here: quota max 2, window 10; the stale
state at time 11 resets and succeeds, and attempts at 12 and 13 also succeed —
three successes inside the window `[11, 21]`). -/
theorem c3_window_reset_cex :
    (checkEndpointLimit { calls := 2, windowStart := 0, windowLength := 10, maxCalls := 2 } 11).1
      = true
    ∧ (checkEndpointLimit { calls := 2, windowStart := 0, windowLength := 10, maxCalls := 2 } 11).2.2.calls
      = 0
    ∧ ¬ (checkEndpointLimit { calls := 2, windowStart := 0, windowLength := 10, maxCalls := 2 } 11).2.2.calls
      = 1
    ∧ (runChecks { calls := 2, windowStart := 0, windowLength := 10, maxCalls := 2 } [11, 12, 13]).1
      = [(true, 0), (true, 0), (true, 0)] := by
  decide

/-- C3 (amended): on an attempt made after the endpoint's window has expired,
the limiter resets `windowStart` to the current time and `calls` to 0 and the
attempt succeeds immediately WITHOUT incrementing the call count — the
triggering attempt leaves `calls = 0` (not 1), so the window begun by the
reset admits `maxCalls` further successful attempts (i.e. `maxCalls + 1`
including the triggering one) before the next in-window attempt is refused. -/
theorem c3_window_reset (limit : EndpointLimit) (now : Int)
    (hexp : now - limit.windowStart > limit.windowLength) :
    checkEndpointLimit limit now
      = (true, 0, { limit with calls := 0, windowStart := now })
    ∧ ∀ (ts : List Int) (tf : Int), ts.length = limit.maxCalls →
        (∀ t ∈ ts, t - now ≤ limit.windowLength) →
        tf - now ≤ limit.windowLength →
        (runChecks { limit with calls := 0, windowStart := now } ts).1
          = List.replicate limit.maxCalls (true, 0)
        ∧ (checkEndpointLimit
            (runChecks { limit with calls := 0, windowStart := now } ts).2 tf).1 = false := by
  constructor
  · simp [checkEndpointLimit, hexp]
  · intro ts tf hlen hwin htf
    have hrun := runChecks_allowed ts { limit with calls := 0, windowStart := now }
      (by simpa using hwin) (by simpa using hlen.le)
    constructor
    · rw [hrun, ← hlen]
    · rw [hrun]
      have hne : ¬ (tf - now > limit.windowLength) := not_lt.mpr htf
      simp [checkEndpointLimit, hne, hlen]

theorem c3_window_reset_witness :
    checkEndpointLimit { calls := 5, windowStart := 0, windowLength := 10, maxCalls := 2 } 11
      = (true, 0, { calls := 0, windowStart := 11, windowLength := 10, maxCalls := 2 })
    ∧ ((runChecks { calls := 0, windowStart := 11, windowLength := 10, maxCalls := 2 } [12, 13]).1
        = List.replicate 2 (true, 0)
      ∧ (checkEndpointLimit
          (runChecks { calls := 0, windowStart := 11, windowLength := 10, maxCalls := 2 } [12, 13]).2
          14).1 = false) :=
  ⟨(c3_window_reset { calls := 5, windowStart := 0, windowLength := 10, maxCalls := 2 } 11
      (by decide)).1,
    (c3_window_reset { calls := 5, windowStart := 0, windowLength := 10, maxCalls := 2 } 11
      (by decide)).2 [12, 13] 14 rfl (by decide) (by decide)⟩

/-- C4 (counterexample): the claim is false for the global pacing gap — the Go
`waitForGlobalLimit` sleeps with `time.Sleep`, never consulting the context,
and always returns `nil`; so an `acquire` whose context fires during the
global pacing sleep still returns success, not the cancellation error. -/
theorem c4_cancellation_cex :
    (waitForEndpoint (freshEndpointLimit 0) [⟨false, 1, false, true⟩]).map Prod.fst
      = some AcquireOutcome.success := by
  decide

/-- C4 (amended): `waitForEndpoint` fails only by cancellation, and
cancellation is honored at the top-of-loop select and during the quota-window
sleep — but NOT during the global pacing sleep: (a) if no cancellation fires
at any context-checked point of the schedule, the loop never returns the
cancellation error; (b) if the context is ready at the top of an iteration,
the loop returns the cancellation error immediately; (c) if the quota check
refuses with a positive wait and the context fires during that sleep, the loop
returns the cancellation error immediately, before consuming any further
iteration of the schedule. -/
theorem c4_cancellation :
    (∀ (limit : EndpointLimit) (sched : List IterInput),
      (∀ it ∈ sched, it.cancelledBefore = false ∧ it.cancelledDuringSleep = false) →
      ∀ l, waitForEndpoint limit sched ≠ some (AcquireOutcome.cancelled, l))
    ∧ (∀ (limit : EndpointLimit) (it : IterInput) (rest : List IterInput),
        it.cancelledBefore = true →
        waitForEndpoint limit (it :: rest) = some (AcquireOutcome.cancelled, limit))
    ∧ (∀ (limit : EndpointLimit) (it : IterInput) (rest : List IterInput),
        it.cancelledBefore = false →
        (checkEndpointLimit limit it.now).1 = false →
        (checkEndpointLimit limit it.now).2.1 > 0 →
        it.cancelledDuringSleep = true →
        waitForEndpoint limit (it :: rest)
          = some (AcquireOutcome.cancelled, (checkEndpointLimit limit it.now).2.2)) := by
  refine ⟨?_, ?_, ?_⟩
  · intro limit sched
    induction sched generalizing limit with
    | nil =>
      intro _ l hcontra
      simp [waitForEndpoint] at hcontra
    | cons it rest ih =>
      intro hflags l hcontra
      have hb := (hflags it (by simp)).1
      have hs := (hflags it (by simp)).2
      simp only [waitForEndpoint, hb, hs, Bool.false_eq_true, if_false, ite_self] at hcontra
      split at hcontra
      · simp at hcontra
      · exact ih _ (fun u hu => hflags u (by simp [hu])) l hcontra
  · intro limit it rest hb
    simp [waitForEndpoint, hb]
  · intro limit it rest hb hF hpos hs
    simp [waitForEndpoint, hb, hF, hpos, hs]

theorem c4_cancellation_witness :
    waitForEndpoint { calls := 1, windowStart := 0, windowLength := 10, maxCalls := 1 }
        [⟨false, 1, true, false⟩]
      = some (AcquireOutcome.cancelled,
          (checkEndpointLimit
            { calls := 1, windowStart := 0, windowLength := 10, maxCalls := 1 } 1).2.2) :=
  c4_cancellation.2.2 { calls := 1, windowStart := 0, windowLength := 10, maxCalls := 1 }
    ⟨false, 1, true, false⟩ [] rfl (by decide) (by decide) rfl

/-! ### Tweet upsert — `src/internal/tasks/background.go` (`StartTweetUpdates`)
and `src/internal/db/migrations.go` (`createTweetsTable`)

The tweets table has `id TEXT PRIMARY KEY`; the ingestion write is
`INSERT INTO tweets (...) VALUES (...) ON CONFLICT (id) DO UPDATE SET
likes = EXCLUDED.likes, replies = EXCLUDED.replies,
retweets = EXCLUDED.retweets, views = EXCLUDED.views`.
The table is modelled as a list of rows; SQL timestamps as `Int`. -/

/-- One row of the `tweets` table, with the columns of `createTweetsTable`. -/
structure TweetRow where
  id : String
  user_id : String
  tweeter_user_id : String
  username : String
  name : String
  text : String
  html : String
  time_parsed : Int
  timestamp : Int
  permanent_url : String
  likes : Int
  replies : Int
  retweets : Int
  views : Int
  is_pin : Bool
  is_reply : Bool
  is_quoted : Bool
  is_retweet : Bool
  is_self_thread : Bool
  sensitive_content : Bool
  retweeted_status_id : String
  quoted_status_id : String
  in_reply_to_status_id : String
  place : String
deriving DecidableEq

/-- The `INSERT ... ON CONFLICT (id) DO UPDATE` write: if a row with the same
primary key exists, update only `likes`, `replies`, `retweets`, `views` from
the excluded (incoming) row; otherwise insert the incoming row. -/
def upsertTweet (table : List TweetRow) (t : TweetRow) : List TweetRow :=
  if table.any (fun r => r.id == t.id) then
    table.map (fun r =>
      if r.id = t.id then
        { r with likes := t.likes, replies := t.replies,
                 retweets := t.retweets, views := t.views }
      else r)
  else
    table ++ [t]

/-- C5: upsert idempotence and field immutability — applying the tweet upsert
twice with the same natural key to a table not containing that key yields
exactly one stored row with that key, whose engagement fields (likes, replies,
retweets, views) equal the second application's values while every other field
(author identity, creation time, text, ...) retains the first insert's values;
the table grows by exactly one row. -/
theorem c5_upsert (table : List TweetRow) (t1 t2 : TweetRow)
    (hid : t1.id = t2.id)
    (habsent : ∀ r ∈ table, r.id ≠ t1.id) :
    (upsertTweet (upsertTweet table t1) t2).filter (fun r => r.id == t1.id)
      = [{ t1 with likes := t2.likes, replies := t2.replies,
                   retweets := t2.retweets, views := t2.views }]
    ∧ (upsertTweet (upsertTweet table t1) t2).length = table.length + 1 := by
  have hany1 : (table.any fun r => r.id == t1.id) = false := by
    simp only [List.any_eq_false]
    intro r hr
    simpa using habsent r hr
  have h1 : upsertTweet table t1 = table ++ [t1] := by
    simp only [upsertTweet, hany1, Bool.false_eq_true, if_false]
  have hany2 : ((table ++ [t1]).any fun r => r.id == t2.id) = true := by
    have hbeq : (t1.id == t2.id) = true := beq_iff_eq.mpr hid
    simp [List.any_append, hbeq]
  have hu : upsertTweet (upsertTweet table t1) t2
      = table ++ [{ t1 with likes := t2.likes, replies := t2.replies,
                            retweets := t2.retweets, views := t2.views }] := by
    rw [h1]
    simp only [upsertTweet, hany2, if_true, List.map_append]
    congr 1
    · conv_rhs => rw [← List.map_id table]
      apply List.map_congr_left
      intro r hr
      have hne : ¬ r.id = t2.id := by
        rw [← hid]
        exact habsent r hr
      simp [hne]
    · simp only [List.map_cons, List.map_nil]
      rw [if_pos hid]
  constructor
  · rw [hu, List.filter_append]
    have hfil : table.filter (fun r => r.id == t1.id) = [] := by
      rw [List.filter_eq_nil_iff]
      intro r hr
      simpa using habsent r hr
    rw [hfil]
    simp
  · rw [hu]
    simp

/-- Concrete first fetch of a tweet, used as witness input. -/
def tweetA : TweetRow :=
  { id := "t1", user_id := "1", tweeter_user_id := "100", username := "alice",
    name := "Alice", text := "hello", html := "<p>hello</p>", time_parsed := 1000,
    timestamp := 1000, permanent_url := "urlA", likes := 1, replies := 2,
    retweets := 3, views := 4, is_pin := false, is_reply := false,
    is_quoted := false, is_retweet := false, is_self_thread := false,
    sensitive_content := false, retweeted_status_id := "", quoted_status_id := "",
    in_reply_to_status_id := "", place := "" }

/-- Concrete second fetch of the same tweet: same natural key, different
engagement counts, and (adversarially) different author fields. -/
def tweetB : TweetRow :=
  { tweetA with user_id := "2", username := "mallory", name := "Mallory",
                text := "changed", timestamp := 2000, likes := 10, replies := 20,
                retweets := 30, views := 40 }

theorem c5_upsert_witness :
    (upsertTweet (upsertTweet [] tweetA) tweetB).filter (fun r => r.id == tweetA.id)
      = [{ tweetA with likes := tweetB.likes, replies := tweetB.replies,
                       retweets := tweetB.retweets, views := tweetB.views }]
    ∧ (upsertTweet (upsertTweet [] tweetA) tweetB).length
      = List.length ([] : List TweetRow) + 1 :=
  c5_upsert [] tweetA tweetB rfl (by simp)

/-! ### Agent manager bootstrap — `src/pkg/twitter/agent_manager.go`
(`NewAgentManager`)

The credential source (`LoadAccounts`) yields a list of accounts; for each,
the code optionally restores cookies (failures there only log), then checks
`IsLoggedIn()`; if unauthenticated it calls `Login` and then `SaveCookies`,
and returns an error — aborting the whole construction — if either fails.
The per-account interactions with the outside world (cookie files, the remote
service) are modelled as an environment record per account. -/

/-- One credential entry from `accounts.json`. -/
structure Account where
  username : String
  password : String
deriving DecidableEq

/-- Outside-world outcomes for one account during bootstrap.  `cookiesExist`
and `loadCookiesOk` influence only log output in the Go code;
`loggedInAfterRestore` is what `agent.IsLoggedIn()` reports after the
(possible) cookie restore. -/
structure AccountEnv where
  cookiesExist : Bool
  loadCookiesOk : Bool
  loggedInAfterRestore : Bool
  loginOk : Bool
  saveCookiesOk : Bool
deriving DecidableEq

/-- Errors `NewAgentManager` can return (besides a failed accounts load). -/
inductive BootstrapError
  | noAccounts
  | loginFailed (username : String)
  | saveCookiesFailed (username : String)
deriving DecidableEq

/-- An agent of the constructed pool. -/
structure AgentHandle where
  username : String
deriving DecidableEq

/-- The per-account body of `NewAgentManager`'s loop: already authenticated →
keep; else `Login`, then `SaveCookies`, each failure aborting with an error. -/
def bootstrapAgent (acc : Account) (env : AccountEnv) : Except BootstrapError AgentHandle :=
  if env.loggedInAfterRestore then Except.ok ⟨acc.username⟩
  else if env.loginOk then
    if env.saveCookiesOk then Except.ok ⟨acc.username⟩
    else Except.error (BootstrapError.saveCookiesFailed acc.username)
  else Except.error (BootstrapError.loginFailed acc.username)

/-- The loop of `NewAgentManager` over all accounts: the first per-account
error aborts the whole construction. -/
def bootstrapAgents : List (Account × AccountEnv) → Except BootstrapError (List AgentHandle)
  | [] => Except.ok []
  | (acc, env) :: rest =>
    match bootstrapAgent acc env with
    | Except.error e => Except.error e
    | Except.ok ag =>
      match bootstrapAgents rest with
      | Except.error e => Except.error e
      | Except.ok ags => Except.ok (ag :: ags)

/-- `NewAgentManager` given a successfully loaded accounts list:
`ErrNoAccounts` when it is empty, otherwise the bootstrap loop. -/
def newAgentManager (accounts : List (Account × AccountEnv)) :
    Except BootstrapError (List AgentHandle) :=
  if accounts.length = 0 then Except.error BootstrapError.noAccounts
  else bootstrapAgents accounts

theorem bootstrapAgents_length : ∀ (accounts : List (Account × AccountEnv))
    (pool : List AgentHandle), bootstrapAgents accounts = Except.ok pool →
    pool.length = accounts.length := by
  intro accounts
  induction accounts with
  | nil =>
    intro pool h
    simp only [bootstrapAgents] at h
    cases h
    rfl
  | cons hd rest ih =>
    intro pool h
    obtain ⟨acc, env⟩ := hd
    simp only [bootstrapAgents] at h
    cases hA : bootstrapAgent acc env with
    | error e => rw [hA] at h; cases h
    | ok ag =>
      rw [hA] at h
      cases hR : bootstrapAgents rest with
      | error e => rw [hR] at h; cases h
      | ok ags =>
        rw [hR] at h
        cases h
        simp [ih ags hR]

theorem bootstrapAgents_ne_ok : ∀ (accounts : List (Account × AccountEnv))
    (acc : Account) (env : AccountEnv), (acc, env) ∈ accounts →
    env.loggedInAfterRestore = false → env.loginOk = false →
    ∀ pool, bootstrapAgents accounts ≠ Except.ok pool := by
  intro accounts
  induction accounts with
  | nil =>
    intro acc env hmem
    cases hmem
  | cons hd rest ih =>
    intro acc env hmem hres hlog pool hcontra
    obtain ⟨acc0, env0⟩ := hd
    simp only [bootstrapAgents] at hcontra
    rcases List.mem_cons.mp hmem with heq | hmem'
    · have h1 : acc0 = acc ∧ env0 = env := by
        have := Prod.mk.injEq acc0 env0 acc env ▸ heq.symm
        exact ⟨congrArg Prod.fst heq.symm, congrArg Prod.snd heq.symm⟩
      obtain ⟨h1a, h1e⟩ := h1
      subst h1a
      subst h1e
      rw [bootstrapAgent, hres, hlog] at hcontra
      simp at hcontra
    · cases hA : bootstrapAgent acc0 env0 with
      | error e => rw [hA] at hcontra; cases hcontra
      | ok ag =>
        rw [hA] at hcontra
        cases hR : bootstrapAgents rest with
        | error e => rw [hR] at hcontra; cases hcontra
        | ok ags => exact ih acc env hmem' hres hlog ags hR

/-- C6: bootstrap is all-or-nothing — constructing the agent manager returns
the no-accounts error when the credential source yields zero entries; it
returns an error (producing no pool at all) whenever any account's login
fails after session restoration did not yield an authenticated state; and any
successfully returned pool contains exactly one agent per account (never a
partial pool). -/
theorem c6_bootstrap :
    newAgentManager [] = Except.error BootstrapError.noAccounts
    ∧ (∀ (accounts : List (Account × AccountEnv)) (acc : Account) (env : AccountEnv),
        (acc, env) ∈ accounts → env.loggedInAfterRestore = false →
        env.loginOk = false →
        ∀ pool, newAgentManager accounts ≠ Except.ok pool)
    ∧ (∀ (accounts : List (Account × AccountEnv)) (pool : List AgentHandle),
        newAgentManager accounts = Except.ok pool → pool.length = accounts.length) := by
  refine ⟨rfl, ?_, ?_⟩
  · intro accounts acc env hmem hres hlog pool hcontra
    have hne : ¬ accounts.length = 0 := by
      cases accounts with
      | nil => cases hmem
      | cons a l => simp
    rw [newAgentManager, if_neg hne] at hcontra
    exact bootstrapAgents_ne_ok accounts acc env hmem hres hlog pool hcontra
  · intro accounts pool h
    by_cases hlen : accounts.length = 0
    · rw [newAgentManager, if_pos hlen] at h
      cases h
    · rw [newAgentManager, if_neg hlen] at h
      exact bootstrapAgents_length accounts pool h

theorem c6_bootstrap_witness :
    newAgentManager [] = Except.error BootstrapError.noAccounts
    ∧ newAgentManager [(⟨"u1", "p1"⟩, ⟨false, false, false, false, false⟩)]
        ≠ Except.ok []
    ∧ ([⟨"u2"⟩] : List AgentHandle).length
        = [((⟨"u2", "p2"⟩ : Account), (⟨false, false, true, true, true⟩ : AccountEnv))].length :=
  ⟨c6_bootstrap.1,
    c6_bootstrap.2.1 [(⟨"u1", "p1"⟩, ⟨false, false, false, false, false⟩)]
      ⟨"u1", "p1"⟩ ⟨false, false, false, false, false⟩ (by simp) rfl rfl [],
    c6_bootstrap.2.2 [(⟨"u2", "p2"⟩, ⟨false, false, true, true, true⟩)] [⟨"u2"⟩] rfl⟩

/-! ### Ingestion sweeps — `src/internal/tasks/background.go`

`StartProfileUpdates`: per row, every failure point (`rows.Scan`,
`GetProfile`, `json.Marshal`, `json.Unmarshal`, `db.Exec`) is logged and the
loop continues with the next row.

`StartTweetUpdates`: same shape; per-tweet `db.Exec` failures are logged and
the inner loop continues with the next tweet.

`processSmartUserTweets` (used by `StartSmartTweetUpdates`): the early
failure points (`QueryRow ... Scan`, `GetUserTweets`, `json.Marshal`,
`json.Unmarshal`) each `return` an error, and so does the FIRST failing
per-tweet `db.Exec` — the remaining tweets of that user are not attempted.
The caller logs the returned error and continues with the next row. -/

/-- Environment of one row of the profile refresh sweep: the username and the
outcomes of its scan, fetch, JSON round-trip, and database update. -/
structure ProfileRowEnv where
  username : String
  scanOk : Bool
  fetchOk : Bool
  marshalOk : Bool
  unmarshalOk : Bool
  persistOk : Bool
deriving DecidableEq

/-- Processing of one row in `StartProfileUpdates`' inner loop: returns the
username whose profile snapshot was persisted, or `none` when any step of the
row failed (each failure is logged and skipped). -/
def processProfileRow (env : ProfileRowEnv) : Option String :=
  if env.scanOk && env.fetchOk && env.marshalOk && env.unmarshalOk && env.persistOk
  then some env.username else none

/-- One full pass of the profile refresh sweep: every row is visited; failed
rows contribute nothing and the pass continues. -/
def profilePass : List ProfileRowEnv → List String
  | [] => []
  | r :: rest =>
    match processProfileRow r with
    | some u => u :: profilePass rest
    | none => profilePass rest

/-- The per-tweet upsert loop of `StartTweetUpdates` (tweet id paired with
whether its `db.Exec` succeeds): a failing exec is logged and the loop
continues; returns the ids upserted. -/
def tweetUpsertLoop : List (String × Bool) → List String
  | [] => []
  | (tid, ok) :: rest =>
    if ok then tid :: tweetUpsertLoop rest else tweetUpsertLoop rest

/-- The per-tweet upsert loop of `processSmartUserTweets`: on the first
failing `db.Exec` the enclosing function returns the error — earlier inserts
stand, later tweets are never attempted.  Returns the ids upserted and the id
whose persist failed, if any. -/
def smartUpsertLoop : List (String × Bool) → List String × Option String
  | [] => ([], none)
  | (tid, ok) :: rest =>
    if ok then
      let r := smartUpsertLoop rest
      (tid :: r.1, r.2)
    else ([], some tid)

/-- Environment of one smart-user row: outcomes of the user-id lookup, the
tweet fetch, the JSON round-trip, and the per-tweet persists. -/
structure SmartRowEnv where
  username : String
  lookupOk : Bool
  fetchOk : Bool
  marshalOk : Bool
  unmarshalOk : Bool
  tweets : List (String × Bool)
deriving DecidableEq

/-- `processSmartUserTweets` for one row: each early failure returns an error
immediately; the per-tweet loop aborts on the first failing persist; on full
success returns the upserted ids. -/
def processSmartUserTweets (env : SmartRowEnv) : Except String (List String) :=
  if env.lookupOk = false then Except.error "lookup"
  else if env.fetchOk = false then Except.error "fetch"
  else if env.marshalOk = false then Except.error "marshal"
  else if env.unmarshalOk = false then Except.error "unmarshal"
  else
    match (smartUpsertLoop env.tweets).2 with
    | some tid => Except.error tid
    | none => Except.ok (smartUpsertLoop env.tweets).1

/-- The periodic pass of `StartSmartTweetUpdates`: before each row the loop
selects on `ctx.Done()` and returns — ending the pass — when the signal is
active; otherwise it processes the row, logging (and skipping past) a
returned error.  Each row is paired with whether the cancellation signal is
active when its iteration begins. -/
def smartPass : List (Bool × SmartRowEnv) → List (List String)
  | [] => []
  | (cancelledHere, env) :: rest =>
    if cancelledHere then []
    else
      match processSmartUserTweets env with
      | Except.ok ids => ids :: smartPass rest
      | Except.error _ => smartPass rest

/-- A periodic pass during which the cancellation signal never activates. -/
def smartSweep (rows : List SmartRowEnv) : List (List String) :=
  smartPass (rows.map fun r => (false, r))

theorem smartPass_cons_ok (env : SmartRowEnv) (rest : List (Bool × SmartRowEnv))
    (ids : List String) (h : processSmartUserTweets env = Except.ok ids) :
    smartPass ((false, env) :: rest) = ids :: smartPass rest := by
  simp [smartPass, h]

theorem smartPass_cons_err (env : SmartRowEnv) (rest : List (Bool × SmartRowEnv))
    (e : String) (h : processSmartUserTweets env = Except.error e) :
    smartPass ((false, env) :: rest) = smartPass rest := by
  simp [smartPass, h]

theorem profilePass_skip (r : ProfileRowEnv) (h : processProfileRow r = none) :
    ∀ rows1 rows2, profilePass (rows1 ++ r :: rows2) = profilePass (rows1 ++ rows2) := by
  intro rows1
  induction rows1 with
  | nil => intro rows2; simp [profilePass, h]
  | cons a l ih =>
    intro rows2
    simp only [List.cons_append, profilePass, List.append_eq]
    rw [ih rows2]

theorem smartPass_skip_err (env : SmartRowEnv) (e : String)
    (h : processSmartUserTweets env = Except.error e) :
    ∀ (pre post : List (Bool × SmartRowEnv)),
      smartPass (pre ++ (false, env) :: post) = smartPass (pre ++ post) := by
  intro pre
  induction pre with
  | nil => intro post; exact smartPass_cons_err env post e h
  | cons hd l ih =>
    intro post
    obtain ⟨b, a⟩ := hd
    cases b with
    | true => simp [smartPass]
    | false =>
      simp only [List.cons_append, smartPass, Bool.false_eq_true, if_false,
        List.append_eq]
      rw [ih post]

theorem smartSweep_skip (env : SmartRowEnv) (e : String)
    (h : processSmartUserTweets env = Except.error e) :
    ∀ rows1 rows2, smartSweep (rows1 ++ env :: rows2) = smartSweep (rows1 ++ rows2) := by
  intro rows1 rows2
  simp only [smartSweep, List.map_append, List.map_cons]
  exact smartPass_skip_err env e h (rows1.map fun r => (false, r))
    (rows2.map fun r => (false, r))

theorem smartUpsertLoop_abort (tid : String) :
    ∀ (pre post : List (String × Bool)), (∀ p ∈ pre, p.2 = true) →
      smartUpsertLoop (pre ++ (tid, false) :: post) = (pre.map Prod.fst, some tid) := by
  intro pre
  induction pre with
  | nil => intro post _; simp [smartUpsertLoop]
  | cons hd l ih =>
    intro post hall
    obtain ⟨pid, pok⟩ := hd
    have hok : pok = true := hall (pid, pok) (by simp)
    subst hok
    simp only [List.cons_append, smartUpsertLoop, if_true, List.map_cons,
      List.append_eq]
    rw [ih post (fun p hp => hall p (by simp [hp]))]

/-- C7 (counterexample): the per-item isolation claim is false for the smart
pipeline's single-row routine — a persist error for the first content item
makes `processSmartUserTweets` return an error at once: the second item, whose
persist would succeed, is never attempted, so the item-level sweep does not
continue with the remaining items. -/
theorem c7_error_isolation_cex :
    processSmartUserTweets
        { username := "bob", lookupOk := true, fetchOk := true,
          marshalOk := true, unmarshalOk := true,
          tweets := [("t1", false), ("t2", true)] }
      = Except.error "t1"
    ∧ (smartUpsertLoop [("t1", false), ("t2", true)]).1 = [] :=
  ⟨rfl, rfl⟩

/-- C7 (amended): per-row errors never abort any sweep — a failed row of the
profile refresh pass is skipped and the pass output on the remaining rows is
unchanged; a failed per-tweet persist in the content refresh loop is skipped;
a smart-user row whose processing returns an error is logged and skipped by
the periodic smart sweep, which continues with the remaining rows.  However,
inside the smart pipeline's single-row routine a persist error for one
content item aborts the remaining items of that row: the loop returns the
failing id, having upserted exactly the items before it. -/
theorem c7_error_isolation :
    (∀ (r : ProfileRowEnv), processProfileRow r = none →
      ∀ (rows1 rows2 : List ProfileRowEnv),
        profilePass (rows1 ++ r :: rows2) = profilePass (rows1 ++ rows2))
    ∧ (∀ (tid : String) (rest : List (String × Bool)),
        tweetUpsertLoop ((tid, false) :: rest) = tweetUpsertLoop rest)
    ∧ (∀ (env : SmartRowEnv) (e : String),
        processSmartUserTweets env = Except.error e →
        ∀ (rows1 rows2 : List SmartRowEnv),
          smartSweep (rows1 ++ env :: rows2) = smartSweep (rows1 ++ rows2))
    ∧ (∀ (pre : List (String × Bool)) (tid : String) (post : List (String × Bool)),
        (∀ p ∈ pre, p.2 = true) →
        smartUpsertLoop (pre ++ (tid, false) :: post) = (pre.map Prod.fst, some tid)) := by
  refine ⟨?_, ?_, ?_, ?_⟩
  · intro r h rows1 rows2
    exact profilePass_skip r h rows1 rows2
  · intro tid rest
    simp [tweetUpsertLoop]
  · intro env e h rows1 rows2
    exact smartSweep_skip env e h rows1 rows2
  · intro pre tid post hall
    exact smartUpsertLoop_abort tid pre post hall

theorem c7_error_isolation_witness :
    profilePass ([⟨"a", true, true, true, true, true⟩]
        ++ (⟨"b", true, false, true, true, true⟩ : ProfileRowEnv)
          :: [⟨"c", true, true, true, true, true⟩])
      = profilePass ([⟨"a", true, true, true, true, true⟩]
          ++ [⟨"c", true, true, true, true, true⟩])
    ∧ smartSweep ([⟨"s1", true, true, true, true, [("t1", true)]⟩]
        ++ (⟨"s2", true, false, true, true, []⟩ : SmartRowEnv) :: [])
      = smartSweep ([⟨"s1", true, true, true, true, [("t1", true)]⟩] ++ [])
    ∧ smartUpsertLoop ([("p1", true)] ++ ("t9", false) :: [("t3", true)])
      = ([("p1", true)].map Prod.fst, some "t9") :=
  ⟨c7_error_isolation.1 ⟨"b", true, false, true, true, true⟩ (by decide)
      [⟨"a", true, true, true, true, true⟩] [⟨"c", true, true, true, true, true⟩],
    c7_error_isolation.2.2.1 ⟨"s2", true, false, true, true, []⟩ "fetch" rfl
      [⟨"s1", true, true, true, true, [("t1", true)]⟩] [],
    c7_error_isolation.2.2.2 [("p1", true)] "t9" [("t3", true)] (by decide)⟩

/-! ### Priority pipeline enqueue — `src/internal/handlers/handlers.go`
(`HandleSaveSmartFollowers`) and `src/cmd/httpserver/main.go`

`smartUsersChan` is a buffered channel of capacity 1000 created in `main`;
the handler offers each newly discovered username with a `select` that has a
`default` branch: when the buffer is full the username is dropped with a log
line, without blocking.  The buffered channel is modelled as a FIFO list
bounded by the capacity. -/

/-- One non-blocking send (`select { case ch <- u: ...; default: ... }`):
append when the buffer has room, else drop; returns the new queue and whether
the send succeeded. -/
def enqueueSmartUser (capacity : Nat) (queue : List String) (u : String) :
    List String × Bool :=
  if queue.length < capacity then (queue ++ [u], true) else (queue, false)

/-- The handler's producer loop over `result.Items`: each username is offered
exactly once; a dropped username is only logged, never re-enqueued.  Returns
the final queue, the usernames sent, and the usernames dropped. -/
def sendNewUsers (capacity : Nat) (queue : List String) :
    List String → List String × List String × List String
  | [] => (queue, [], [])
  | u :: rest =>
    if queue.length < capacity then
      ((sendNewUsers capacity (queue ++ [u]) rest).1,
       u :: (sendNewUsers capacity (queue ++ [u]) rest).2.1,
       (sendNewUsers capacity (queue ++ [u]) rest).2.2)
    else
      ((sendNewUsers capacity queue rest).1,
       (sendNewUsers capacity queue rest).2.1,
       u :: (sendNewUsers capacity queue rest).2.2)

/-- C8: non-blocking enqueue with observable drop — for every state of the
bounded queue the producer-side enqueue returns without waiting: when the
queue is full the identifier is dropped and the queue state is unchanged;
when there is room the identifier is appended; and across a whole producer
batch every identifier is offered exactly once (each ends up either sent or
dropped — a dropped identifier is never retried). -/
theorem c8_nonblocking_enqueue :
    (∀ (capacity : Nat) (queue : List String) (u : String),
      capacity ≤ queue.length → enqueueSmartUser capacity queue u = (queue, false))
    ∧ (∀ (capacity : Nat) (queue : List String) (u : String),
      queue.length < capacity →
      enqueueSmartUser capacity queue u = (queue ++ [u], true))
    ∧ (∀ (capacity : Nat) (queue : List String) (items : List String),
        (sendNewUsers capacity queue items).2.1.length
          + (sendNewUsers capacity queue items).2.2.length = items.length) := by
  refine ⟨?_, ?_, ?_⟩
  · intro capacity queue u h
    simp [enqueueSmartUser, Nat.not_lt.mpr h]
  · intro capacity queue u h
    simp [enqueueSmartUser, h]
  · intro capacity queue items
    induction items generalizing queue with
    | nil => rfl
    | cons u rest ih =>
      by_cases hq : queue.length < capacity
      · have h1 := ih (queue ++ [u])
        simp only [sendNewUsers, if_pos hq, List.length_cons]
        omega
      · have h1 := ih queue
        simp only [sendNewUsers, if_neg hq, List.length_cons]
        omega

theorem c8_nonblocking_enqueue_witness :
    enqueueSmartUser 2 ["a", "b"] "c" = (["a", "b"], false)
    ∧ enqueueSmartUser 2 ["a"] "c" = (["a", "c"], true)
    ∧ (sendNewUsers 1 [] ["x", "y", "z"]).2.1.length
        + (sendNewUsers 1 [] ["x", "y", "z"]).2.2.length
      = (["x", "y", "z"] : List String).length :=
  ⟨c8_nonblocking_enqueue.1 2 ["a", "b"] "c" (by decide),
    c8_nonblocking_enqueue.2.1 2 ["a"] "c" (by decide),
    c8_nonblocking_enqueue.2.2 1 [] ["x", "y", "z"]⟩

/-! ### Loop cancellation — `src/internal/tasks/background.go` and
`src/cmd/httpserver/main.go`

`main` creates the cancellable context and passes it ONLY to
`StartSmartTweetUpdates`; `StartProfileUpdates` and `StartTweetUpdates`
receive no context at all and perform their fetches with
`context.Background()`, so the process-wide cancellation signal is invisible
to those two goroutines. -/

/-- `StartProfileUpdates`' goroutine, given the process-wide cancellation
flag and the rows scanned for each pass: the Go function holds no reference
to the cancellation context, so the flag cannot influence the run — every
scheduled pass is processed in full. -/
def startProfileUpdatesLoop (cancelled : Bool) (passes : List (List ProfileRowEnv)) :
    List (List String) :=
  passes.map profilePass

/-- `StartTweetUpdates`' goroutine: likewise context-free; each pass runs the
per-item upsert loop over every user's fetched tweets. -/
def startTweetUpdatesLoop (cancelled : Bool)
    (passes : List (List (List (String × Bool)))) : List (List (List String)) :=
  passes.map fun rows => rows.map tweetUpsertLoop

/-- One wake-up of `StartSmartTweetUpdates`' outer `select`: the context is
done, or a username arrives on the channel (`closed` = the channel was
closed), or the ticker fires with the rows of a periodic pass. -/
inductive SmartEvent where
  | ctxDone
  | channelRecv (closed : Bool) (env : SmartRowEnv)
  | tick (rows : List (Bool × SmartRowEnv))
deriving DecidableEq

/-- `StartSmartTweetUpdates`' outer loop over a finite schedule of wake-ups:
context cancellation and channel closure return immediately; a received
username is processed at once (an error is logged and the loop continues); a
tick runs one periodic pass. -/
def startSmartTweetUpdatesLoop : List SmartEvent → List (List String)
  | [] => []
  | SmartEvent.ctxDone :: _ => []
  | SmartEvent.channelRecv closed env :: rest =>
    if closed then []
    else
      match processSmartUserTweets env with
      | Except.ok ids => ids :: startSmartTweetUpdatesLoop rest
      | Except.error _ => startSmartTweetUpdatesLoop rest
  | SmartEvent.tick rows :: rest => smartPass rows ++ startSmartTweetUpdatesLoop rest

theorem smartPass_stop (env : SmartRowEnv) :
    ∀ (pre post : List (Bool × SmartRowEnv)), (∀ p ∈ pre, p.1 = false) →
      smartPass (pre ++ (true, env) :: post) = smartPass pre := by
  intro pre
  induction pre with
  | nil => intro post _; simp [smartPass]
  | cons hd l ih =>
    intro post hall
    obtain ⟨b, a⟩ := hd
    have hb : b = false := hall (b, a) (by simp)
    subst hb
    simp only [List.cons_append, smartPass, Bool.false_eq_true, if_false,
      List.append_eq]
    rw [ih post (fun p hp => hall p (by simp [hp]))]

/-- C9 (counterexample): the claim is false for the profile refresh loop —
`StartProfileUpdates` never consults the cancellation signal (it receives no
context and fetches with `context.Background()`), so with the signal active
from the start the loop still runs a full pass and persists a row, instead of
exiting without starting another iteration. -/
theorem c9_cancellation_cex :
    startProfileUpdatesLoop true [[⟨"alice", true, true, true, true, true⟩]]
      = [["alice"]]
    ∧ startProfileUpdatesLoop true [[⟨"alice", true, true, true, true, true⟩]]
      ≠ [] :=
  ⟨rfl, by decide⟩

/-- C9 (amended): only the priority content pipeline observes the
process-wide cancellation signal: its outer select exits immediately when the
signal is active (consuming nothing further of its schedule), and its
periodic pass checks the signal before each row and stops the pass there —
rows at and after the first active check are not processed.  The profile and
content refresh loops hold no reference to the signal: their runs are
identical whether or not it is active, every scheduled pass running in
full. -/
theorem c9_cancellation :
    (∀ (rest : List SmartEvent),
      startSmartTweetUpdatesLoop (SmartEvent.ctxDone :: rest) = [])
    ∧ (∀ (pre : List (Bool × SmartRowEnv)) (env : SmartRowEnv)
        (post : List (Bool × SmartRowEnv)),
        (∀ p ∈ pre, p.1 = false) →
        smartPass (pre ++ (true, env) :: post) = smartPass pre)
    ∧ (∀ (passes : List (List ProfileRowEnv)),
        startProfileUpdatesLoop true passes = startProfileUpdatesLoop false passes)
    ∧ (∀ (passes : List (List (List (String × Bool)))),
        startTweetUpdatesLoop true passes = startTweetUpdatesLoop false passes) := by
  refine ⟨fun rest => rfl, ?_, fun passes => rfl, fun passes => rfl⟩
  intro pre env post hall
  exact smartPass_stop env pre post hall

theorem c9_cancellation_witness :
    startSmartTweetUpdatesLoop [SmartEvent.ctxDone] = []
    ∧ smartPass ([(false, ⟨"s1", true, true, true, true, [("t1", true)]⟩)]
        ++ (true, (⟨"s3", true, true, true, true, []⟩ : SmartRowEnv)) :: [])
      = smartPass [(false, ⟨"s1", true, true, true, true, [("t1", true)]⟩)] :=
  ⟨c9_cancellation.1 [],
    c9_cancellation.2.1 [(false, ⟨"s1", true, true, true, true, [("t1", true)]⟩)]
      ⟨"s3", true, true, true, true, []⟩ [] (by simp)⟩

end XGo
